import Mathlib

/-!
Verification of the Resume Analysis Pipeline of the Carrer-Craft backend.

The pipeline lives in `ats_utils/ats_ai.py` (JSON recovery, schema
normalizer, heuristic fallback scorer, orchestration) and the document
extractors live in `ats_utils/extract_any.py` and `ats_utils/extract_pdf.py`.
Python values flowing through the pipeline (results of `json.loads`, the
dict literals of the source) are embedded as the `Json` type below, with
Python dicts represented as insertion-ordered association lists, which is
exactly the observable behaviour of Python dicts: `key in d` looks the key
up, `d[key] = v` updates in place when the key exists and appends at the end
when it does not.

External effects are embedded as explicit oracle parameters:
the Groq HTTP call (`_call_model_chat`, source lines 246-273) composed with
the response-envelope-to-text normalization (`_model_response_to_text`,
lines 276-291) becomes a function from the prompt to the resolved response
text or a raised exception; the filesystem and the PDF/DOCX libraries used
by the extractors become similar oracles. Everything the repository itself
computes is embedded directly from the source.
-/

/-- Embedded Python/JSON values: the results of `json.loads` and the dict
literals of `ats_ai.py`. Objects are insertion-ordered association lists,
matching the observable behaviour of Python dicts. Numbers are embedded as
integers: the integer fragment is the only one the analyzed code produces
or tests. -/
inductive Json where
  | null : Json
  | bool : Bool → Json
  | num : Int → Json
  | str : String → Json
  | arr : List Json → Json
  | obj : List (String × Json) → Json

/-- Python `d[k]` / `d.get(k)`: the value at the first matching key. -/
def lookupKey : List (String × Json) → String → Option Json
  | [], _ => none
  | (k', v) :: rest, k => if k' = k then some v else lookupKey rest k

/-- Python `k in d`. -/
def hasKey (l : List (String × Json)) (k : String) : Bool :=
  (lookupKey l k).isSome

/-- Python `d[k] = v`: update in place when the key exists, append at the
end when it does not. -/
def setKey : List (String × Json) → String → Json → List (String × Json)
  | [], k, v => [(k, v)]
  | (k', v') :: rest, k, v =>
      if k' = k then (k, v) :: rest else (k', v') :: setKey rest k v

/-- The fields of a Python dict value; any non-dict has no fields. -/
def jsonFields : Json → List (String × Json)
  | Json.obj f => f
  | _ => []

/-- The loop `for key, val in defaults.items(): if key not in data: data[key] = val`
of `_merge_defaults` (and the analogous sub-key loops): every key of `ds`
absent from `l` is appended at the end, in the order of `ds`. -/
def fillMissing (l : List (String × Json)) : List (String × Json) → List (String × Json)
  | [] => l
  | (k, v) :: ds => fillMissing (if hasKey l k then l else l ++ [(k, v)]) ds

/-- The `defaults["extracted"]` literal of `_merge_defaults` (lines 98-104). -/
def extractedDefaults : List (String × Json) :=
  [("name", Json.str ""), ("email", Json.str ""), ("position", Json.str ""),
   ("experience", Json.str "Fresher"), ("skills", Json.arr [])]

/-- The `defaults["skills_relevance"]` literal of `_merge_defaults` (lines 109-112). -/
def skillsRelevanceDefaults : List (String × Json) :=
  [("matched", Json.arr []), ("missing", Json.arr [])]

/-- The `defaults` dict literal of `_merge_defaults` (lines 91-113), in its
insertion order. -/
def topDefaults : List (String × Json) :=
  [("score", Json.num 50),
   ("matched_keywords", Json.arr []),
   ("missing_keywords", Json.arr []),
   ("formatting_issues", Json.arr []),
   ("suggestions", Json.arr []),
   ("strengths", Json.arr []),
   ("extracted", Json.obj extractedDefaults),
   ("grammatical_errors", Json.arr []),
   ("professional_tone", Json.str ""),
   ("unnecessary_info", Json.arr []),
   ("experience_relevance", Json.str ""),
   ("skills_relevance", Json.obj skillsRelevanceDefaults)]

/-- The guard `if not isinstance(data.get(k), dict)` of lines 124-127: a
non-dict nested value at `k` is replaced with an empty dict. -/
def ensureObjAt (l : List (String × Json)) (k : String) : List (String × Json) :=
  match lookupKey l k with
  | some (Json.obj _) => l
  | _ => setKey l k (Json.obj [])

/-- The fields of the dict stored under `k`; only used after `ensureObjAt`. -/
def objFieldsAt (l : List (String × Json)) (k : String) : List (String × Json) :=
  match lookupKey l k with
  | some (Json.obj f) => f
  | _ => []

/-- The sub-key loops of `_merge_defaults` (lines 130-137): fill the missing
keys of the nested dict at `k` from `ds`. -/
def fillSubAt (l : List (String × Json)) (k : String) (ds : List (String × Json)) :
    List (String × Json) :=
  setKey l k (Json.obj (fillMissing (objFieldsAt l k) ds))

/-- Python `d[k][sub] = v` on a dict-valued entry `k`: read the nested dict,
update it, and the update is visible at `k` (in-place mutation). -/
def setSubKey (l : List (String × Json)) (k sub : String) (v : Json) :
    List (String × Json) :=
  setKey l k (Json.obj (setKey (objFieldsAt l k) sub v))

/-- The `if not jd_present:` block of `_merge_defaults` (lines 140-145):
`missing_keywords`, `skills_relevance["missing"]` and `extracted["position"]`
are overwritten with their empty values, in the order of the source. -/
def jdOverride (l : List (String × Json)) : List (String × Json) :=
  setSubKey
    (setSubKey (setKey l "missing_keywords" (Json.arr []))
      "skills_relevance" "missing" (Json.arr []))
    "extracted" "position" (Json.str "")

/-- The default-filling part of `_merge_defaults` (lines 119-137), on the
fields of the input dict, in source order: top-level fill, the two
`isinstance` guards, then the two sub-key fills. -/
def mergeFieldsCore (f : List (String × Json)) : List (String × Json) :=
  fillSubAt
    (fillSubAt
      (ensureObjAt (ensureObjAt (fillMissing f topDefaults) "extracted") "skills_relevance")
      "extracted" extractedDefaults)
    "skills_relevance" skillsRelevanceDefaults

/-- Model of `_merge_defaults` on dict fields: default filling followed by the
JD-absence override when `jd_present` is false. -/
def mergeFields (f : List (String × Json)) (jdPresent : Bool) : List (String × Json) :=
  if jdPresent then mergeFieldsCore f else jdOverride (mergeFieldsCore f)

/-- Model of `_merge_defaults(data, jd_present)` (`ats_ai.py` lines 86-147): a non-dict
input is replaced by `{}` (line 115-116), then the defaults are merged in and
the JD-absence rules applied. Total on all embedded Python values. -/
def _merge_defaults (data : Json) (jd_present : Bool) : Json :=
  Json.obj (mergeFields (jsonFields data) jd_present)

/-- The shape every output of `_merge_defaults` has: all default keys present,
`extracted` and `skills_relevance` are dicts with their sub-keys present, and,
when no job description is present, the three JD-absence fields hold their
forced empty values. -/
def NormalizedFields (l : List (String × Json)) (jd : Bool) : Prop :=
  (∀ kv ∈ topDefaults, hasKey l kv.1 = true) ∧
  (∃ e, lookupKey l "extracted" = some (Json.obj e) ∧
        (∀ kv ∈ extractedDefaults, hasKey e kv.1 = true) ∧
        (jd = false → lookupKey e "position" = some (Json.str ""))) ∧
  (∃ sr, lookupKey l "skills_relevance" = some (Json.obj sr) ∧
        (∀ kv ∈ skillsRelevanceDefaults, hasKey sr kv.1 = true) ∧
        (jd = false → lookupKey sr "missing" = some (Json.arr []))) ∧
  (jd = false → lookupKey l "missing_keywords" = some (Json.arr []))

/-- All keys of `ds` present in `l`: the Boolean form of sub-schema completeness. -/
def objComplete (ds l : List (String × Json)) : Bool :=
  ds.all fun kv => hasKey l kv.1

/-- Decidable check that a value is a Report with the full schema of
`BASE_JSON`: a dict carrying every top-level key of the defaults, whose
`extracted` entry is a dict carrying the five extracted sub-keys and whose
`skills_relevance` entry is a dict carrying `matched` and `missing`. -/
def schemaComplete : Json → Bool
  | Json.obj l =>
    objComplete topDefaults l &&
    (match lookupKey l "extracted" with
     | some (Json.obj e) => objComplete extractedDefaults e
     | _ => false) &&
    (match lookupKey l "skills_relevance" with
     | some (Json.obj sr) => objComplete skillsRelevanceDefaults sr
     | _ => false)
  | _ => false

/-- Decidable check of the three JD-absence equalities of Invariant I2:
`missing_keywords == []`, `skills_relevance.missing == []` and
`extracted.position == ""`. -/
def jdAbsentOk : Json → Bool
  | Json.obj l =>
    (match lookupKey l "missing_keywords" with
     | some (Json.arr []) => true
     | _ => false) &&
    (match lookupKey l "skills_relevance" with
     | some (Json.obj sr) =>
        match lookupKey sr "missing" with
        | some (Json.arr []) => true
        | _ => false
     | _ => false) &&
    (match lookupKey l "extracted" with
     | some (Json.obj e) =>
        match lookupKey e "position" with
        | some (Json.str "") => true
        | _ => false
     | _ => false)
  | _ => false

/-- The left-brace character, written by code point to keep it out of
string and character literals. -/
def lbrace : Char := Char.ofNat 123

/-- The right-brace character. -/
def rbrace : Char := Char.ofNat 125

/-- The double-quote character. -/
def dquote : Char := Char.ofNat 34

/-- The whitespace skipped by the JSON grammar (and by Python json). -/
def skipWs : List Char → List Char
  | [] => []
  | c :: cs => if c = ' ' || c = '\t' || c = '\n' || c = '\r' then skipWs cs else c :: cs

/-- Longest leading run of decimal digits. -/
def takeDigits : List Char → List Char × List Char
  | [] => ([], [])
  | c :: cs =>
    if c.isDigit then
      let p := takeDigits cs
      (c :: p.1, p.2)
    else ([], c :: cs)

/-- Decimal value of a digit run. -/
def digitsToNat (ds : List Char) : Nat :=
  ds.foldl (fun n c => n * 10 + (c.toNat - 48)) 0

/-- JSON number parsing, integer fragment: optional minus, then digits with
no redundant leading zero; a following fraction dot or exponent letter
(floating point, which the analyzed pipeline never produces or consumes)
is outside the modelled fragment and fails the parse. -/
def parseNumber (cs : List Char) : Option (Json × List Char) :=
  let p := match cs with
    | '-' :: r => (true, r)
    | _ => (false, cs)
  match takeDigits p.2 with
  | ([], _) => none
  | (ds, rest) =>
    if 1 < ds.length ∧ ds.head? = some '0' then none
    else
      match rest with
      | '.' :: _ => none
      | 'e' :: _ => none
      | 'E' :: _ => none
      | _ =>
        let n : Int := Int.ofNat (digitsToNat ds)
        some (Json.num (if p.1 then -n else n), rest)

/-- Body of a JSON string after the opening quote, strict mode: the basic
escapes, no raw control characters; the \\u escape is outside the modelled
fragment. -/
def parseStringBody (fuel : Nat) (cs : List Char) (acc : List Char) :
    Option (String × List Char) :=
  match fuel, cs with
  | 0, _ => none
  | _ + 1, [] => none
  | f + 1, c :: rest =>
    if c = dquote then some (String.mk acc.reverse, rest)
    else if c = '\\' then
      match rest with
      | [] => none
      | e :: rest2 =>
        if e = dquote then parseStringBody f rest2 (dquote :: acc)
        else if e = '\\' then parseStringBody f rest2 ('\\' :: acc)
        else if e = '/' then parseStringBody f rest2 ('/' :: acc)
        else if e = 'b' then parseStringBody f rest2 ('\x08' :: acc)
        else if e = 'f' then parseStringBody f rest2 ('\x0c' :: acc)
        else if e = 'n' then parseStringBody f rest2 ('\n' :: acc)
        else if e = 'r' then parseStringBody f rest2 ('\r' :: acc)
        else if e = 't' then parseStringBody f rest2 ('\t' :: acc)
        else none
    else if c.toNat < 32 then none
    else parseStringBody f rest (c :: acc)

mutual

/-- One JSON value at the head of the input (leading whitespace already
skipped by the caller), returning the value and the unconsumed rest. -/
def parseValue : Nat → List Char → Option (Json × List Char)
  | 0, _ => none
  | fuel + 1, cs =>
    match cs with
    | [] => none
    | c :: rest =>
      if c = lbrace then
        match skipWs rest with
        | c1 :: rest1 =>
          if c1 = rbrace then some (Json.obj [], rest1)
          else parseMembers fuel (c1 :: rest1) []
        | [] => none
      else if c = '[' then
        match skipWs rest with
        | c1 :: rest1 =>
          if c1 = ']' then some (Json.arr [], rest1)
          else parseElems fuel (c1 :: rest1) []
        | [] => none
      else if c = dquote then
        match parseStringBody (rest.length + 1) rest [] with
        | some (s, r) => some (Json.str s, r)
        | none => none
      else if c = 't' then
        match cs with
        | 't' :: 'r' :: 'u' :: 'e' :: r => some (Json.bool true, r)
        | _ => none
      else if c = 'f' then
        match cs with
        | 'f' :: 'a' :: 'l' :: 's' :: 'e' :: r => some (Json.bool false, r)
        | _ => none
      else if c = 'n' then
        match cs with
        | 'n' :: 'u' :: 'l' :: 'l' :: r => some (Json.null, r)
        | _ => none
      else parseNumber cs

/-- The members of a non-empty JSON object; duplicate keys collapse with
the last value winning at the first position, as in a Python dict. -/
def parseMembers : Nat → List Char → List (String × Json) → Option (Json × List Char)
  | 0, _, _ => none
  | fuel + 1, cs, acc =>
    match cs with
    | c :: rest =>
      if c = dquote then
        match parseStringBody (rest.length + 1) rest [] with
        | some (k, r1) =>
          match skipWs r1 with
          | ':' :: r2 =>
            match parseValue fuel (skipWs r2) with
            | some (v, r3) =>
              match skipWs r3 with
              | ',' :: r4 => parseMembers fuel (skipWs r4) (setKey acc k v)
              | c5 :: r5 =>
                if c5 = rbrace then some (Json.obj (setKey acc k v), r5) else none
              | [] => none
            | none => none
          | _ => none
        | none => none
      else none
    | [] => none

/-- The elements of a non-empty JSON array. -/
def parseElems : Nat → List Char → List Json → Option (Json × List Char)
  | 0, _, _ => none
  | fuel + 1, cs, acc =>
    match parseValue fuel cs with
    | some (v, r1) =>
      match skipWs r1 with
      | ',' :: r2 => parseElems fuel (skipWs r2) (acc ++ [v])
      | ']' :: r3 => some (Json.arr (acc ++ [v]), r3)
      | _ => none
    | none => none

end

/-- Model of Python `json.loads` on the fragment the pipeline exercises:
parse one value surrounded by optional whitespace and require the whole
input to be consumed; any failure that Python would raise is `none`. -/
def loads (s : String) : Option Json :=
  match parseValue (s.length + 1) (skipWs s.toList) with
  | some (j, rest) => if skipWs rest = [] then some j else none
  | none => none

example : loads " 77 " = some (Json.num 77) := rfl

example : loads "[1, 2]" = some (Json.arr [Json.num 1, Json.num 2]) := rfl

example : loads "\x7b\"score\": 77\x7d" = some (Json.obj [("score", Json.num 77)]) := rfl

example : loads "hello \x7b\x7d" = none := rfl

/-- Python `str.strip()`: drop leading and trailing whitespace (the ASCII
whitespace the pipeline ever meets). -/
def pyStrip (s : String) : String :=
  String.mk ((skipWs (skipWs s.toList.reverse).reverse))

example : pyStrip "  a b\n " = "a b" := rfl

/-- Python `raw.find(c)`: index of the first occurrence, as an Option in
place of the -1 sentinel. -/
def pyFind (c : Char) (cs : List Char) : Option Nat :=
  cs.findIdx? (· = c)

/-- Python `raw.rfind(c)`: index of the last occurrence. -/
def pyRfind (c : Char) (cs : List Char) : Option Nat :=
  match cs.reverse.findIdx? (· = c) with
  | some i => some (cs.length - 1 - i)
  | none => none

/-- Model of `_safe_parse_json(raw)` (`ats_ai.py` lines 58-83): strip, try a direct
parse, and on failure parse the inclusive substring between the first
left brace and the last right brace when such a pair exists in order;
every parse exception is `none`. The `raw is None` guard of line 63 is
outside the embedding, whose callers always supply a string. -/
def _safe_parse_json (raw : String) : Option Json :=
  let r := pyStrip raw
  match loads r with
  | some j => some j
  | none =>
    let cs := r.toList
    match pyFind lbrace cs, pyRfind rbrace cs with
    | some s, some e =>
      if s < e then loads (String.mk (List.take (e + 1 - s) (List.drop s cs)))
      else none
    | _, _ => none

example :
    _safe_parse_json "Here is the result: \x7b\"score\": 77\x7d Thanks!" =
      some (Json.obj [("score", Json.num 77)]) := rfl

example : _safe_parse_json "no json here" = none := rfl

/-- The `BASE_JSON` schema text embedded in both prompts (lines 29-55). -/
def BASE_JSON : String :=
  "\n\x7b\n  \"score\": 0,\n  \"matched_keywords\": [],\n  \"missing_keywords\": [],\n  \"formatting_issues\": [],\n  \"suggestions\": [],\n  \"strengths\": [],\n\n  \"extracted\": \x7b\n      \"name\": \"\",\n      \"email\": \"\",\n      \"position\": \"\",\n      \"experience\": \"Fresher\",\n      \"skills\": []\n  \x7d,\n\n  \"grammatical_errors\": [],\n  \"professional_tone\": \"\",\n  \"unnecessary_info\": [],\n  \"experience_relevance\": \"\",\n  \"skills_relevance\": \x7b\n      \"matched\": [],\n      \"missing\": []\n  \x7d\n\x7d\n"

/-- Model of `build_resume_only_prompt(resume_text)` (lines 153-199). -/
def build_resume_only_prompt (resume_text : String) : String :=
  "\nYou are an expert Applicant Tracking System (ATS). Only the resume is provided (NO job description).\n\nReturn ONLY valid JSON with no extra text. It MUST match this schema:\n\n" ++
  BASE_JSON ++
  "\n\n========================\nSCORING (RESUME ONLY)\n========================\n- \"score\": integer 0–100.\n- This score reflects overall resume quality for generic tech/software roles.\n- Use BALANCED, REALISTIC scoring:\n    • Strong fresher resume: 65–80\n    • Average: 45–65\n    • Weak: below 45\n\n========================\nKEYWORDS & SKILLS\n========================\n- \"matched_keywords\": skills present in resume\n- \"missing_keywords\": MUST be []\n- \"skills_relevance.missing\": MUST be []\n- \"skills_relevance.matched\": skills in resume\n\n========================\nEXTRACTED SECTION\n========================\n- \"extracted.name\": candidate name\n- \"extracted.email\": candidate email\n- \"extracted.position\": \"\" (NO JD)\n- \"extracted.experience\": \"Fresher\" or number of years\n- \"extracted.skills\": 5–10 skills\n\n========================\nGRAMMAR vs FORMATTING\n========================\n- real grammar issues only\n- spacing/layout issues belong in formatting_issues\n\n========================\nRESUME BELOW\n========================\n\n" ++
  resume_text ++
  "\n"

/-- Model of `build_resume_jd_prompt(resume_text, jd)` (lines 202-240). -/
def build_resume_jd_prompt (resume_text : String) (jd : String) : String :=
  "\nYou are an Applicant Tracking System (ATS) evaluating ONE candidate for ONE specific job.\n\nReturn ONLY valid JSON with no extra text. Use this schema:\n\n" ++
  BASE_JSON ++
  "\n\n========================\nSCORING WITH JOB DESCRIPTION\n========================\n- \"score\": 0–100 based on resume match to JD\n- realistic ATS scoring required:\n    • Excellent: 80–95\n    • Good: 65–80\n    • Average: 45–65\n    • Poor: <45\n\n========================\nMATCHED & MISSING KEYWORDS\n========================\n- matched_keywords = skills in BOTH resume & JD\n- missing_keywords = required in JD but missing in resume\n- skills_relevance must match this logic\n\n========================\nPOSITION & EXPERIENCE\n========================\n- extracted.position = main JD role\n- experience mapping same as before\n\n========================\n\nRESUME:\n" ++
  resume_text ++
  "\n\nJOB DESCRIPTION:\n" ++
  jd ++
  "\n"

/-- ASCII lower-casing, the fragment of Python `str.lower()` the heuristic
ever distinguishes. -/
def asciiLower (c : Char) : Char :=
  if 'A' ≤ c ∧ c ≤ 'Z' then Char.ofNat (c.toNat + 32) else c

/-- Worker for `pySplitWs`: current (reversed) word and remaining input. -/
def splitWsGo : List Char → List Char → List String
  | [], acc => if acc = [] then [] else [String.mk acc.reverse]
  | c :: cs, acc =>
    if c = ' ' || c = '\t' || c = '\n' || c = '\r' then
      (if acc = [] then [] else [String.mk acc.reverse]) ++ splitWsGo cs []
    else splitWsGo cs (c :: acc)

/-- Python `s.split()` with no separator: split on whitespace runs,
discarding empty pieces. -/
def pySplitWs (s : String) : List String :=
  splitWsGo s.toList []

example : pySplitWs "  python  and c++\n" = ["python", "and", "c++"] := rfl

/-- Python `s.lower()` on the ASCII fragment. -/
def pyLower (s : String) : String :=
  String.mk (s.toList.map asciiLower)

/-- The fixed skill vocabulary of the fallback heuristic (line 330). -/
def fallbackVocab : List String :=
  ["python", "java", "sql", "javascript", "react", "aws", "docker", "c++", "c"]

/-- The tokens `words = resume_text.lower().split()` (line 329). -/
def fallbackWords (resume_text : String) : List String :=
  pySplitWs (pyLower resume_text)

/-- The list `skills = [w for w in [...] if w in words]` (line 330): the vocabulary
tokens present among the words, in vocabulary order. -/
def fallbackSkills (resume_text : String) : List String :=
  fallbackVocab.filter fun w => (fallbackWords resume_text).contains w

/-- The `fallback` dict literal of `_analyze_resume_only` (lines 331-345). -/
def fallbackDict (resume_text : String) : Json :=
  let words := fallbackWords resume_text
  let skills := fallbackSkills resume_text
  Json.obj
    [("score", Json.num 55),
     ("matched_keywords", Json.arr ((skills.take 5).map Json.str)),
     ("missing_keywords", Json.arr []),
     ("formatting_issues", Json.arr []),
     ("suggestions", Json.arr
        [Json.str "Use relevant keywords from job description",
         Json.str "Improve bullet clarity"]),
     ("strengths", Json.arr
        [Json.str "Education present", Json.str "Projects listed"]),
     ("extracted", Json.obj
        [("name", Json.str ""), ("email", Json.str ""), ("position", Json.str ""),
         ("experience", Json.str (if 40 < words.length then "1-2 years" else "Fresher")),
         ("skills", Json.arr ((skills.take 5).map Json.str))]),
     ("grammatical_errors", Json.arr []),
     ("professional_tone", Json.str ""),
     ("unnecessary_info", Json.arr []),
     ("experience_relevance", Json.str ""),
     ("skills_relevance", Json.obj
        [("matched", Json.arr ((skills.take 3).map Json.str)),
         ("missing", Json.arr [])]),
     ("error", Json.str "fallback_used")]

/-- The external boundary of the generative path. `apiKey` is the
truthiness of the `GROQ_API_KEY` environment variable; `respond` is the
composition of the HTTP call `_call_model_chat` (lines 246-273) and the
envelope-to-text normalization `_model_response_to_text` (lines 276-291),
mapping the prompt to the resolved response text, with `Except.error`
standing for any exception raised by the request. -/
structure GroqEnv where
  apiKey : Bool
  respond : String → Except Unit String

/-- Model of `_analyze_with_model(prompt, resume_text, jd_present)` (lines 294-307)
with the network behind `env.respond`: resolve the response text, recover
JSON from it (the source retries `_safe_parse_json` once on the same text,
line 303, with the same outcome), and normalize a successful parse with
`_merge_defaults`. The discarded `raw_resp` component is omitted. -/
def _analyze_with_model (env : GroqEnv) (prompt : String) (jd_present : Bool) :
    Except Unit (Option Json) :=
  match env.respond prompt with
  | Except.error e => Except.error e
  | Except.ok text =>
    match _safe_parse_json text with
    | none =>
      match _safe_parse_json text with
      | none => Except.ok none
      | some parsed => Except.ok (some (_merge_defaults parsed jd_present))
    | some parsed => Except.ok (some (_merge_defaults parsed jd_present))

/-- Model of `_analyze_resume_only(resume_text)` (lines 313-346): try the model when
an API key is configured, and on any exception or unparseable response fall
back to the deterministic heuristic, normalized with `jd_present=False`. -/
def _analyze_resume_only (env : GroqEnv) (resume_text : String) : Json :=
  let prompt := build_resume_only_prompt resume_text
  let viaModel : Option Json :=
    if env.apiKey then
      match _analyze_with_model env prompt false with
      | Except.ok (some parsed) => some parsed
      | _ => none
    else none
  match viaModel with
  | some r => r
  | none => _merge_defaults (fallbackDict resume_text) false

/-- Model of `analyze_resume_with_ai(resume_text, job_description)` (lines 349-370):
`jd = (job_description or "").strip()`; an empty trimmed JD takes the
resume-only path, otherwise the JD prompt is tried and any failure falls
back to the resume-only analysis. -/
def analyze_resume_with_ai (env : GroqEnv) (resume_text : String)
    (job_description : Option String) : Json :=
  let jd := pyStrip (job_description.getD "")
  if jd = "" then _analyze_resume_only env resume_text
  else
    let prompt := build_resume_jd_prompt resume_text jd
    let viaModel : Option Json :=
      if env.apiKey then
        match _analyze_with_model env prompt true with
        | Except.ok (some parsed) => some parsed
        | _ => none
      else none
    match viaModel with
    | some r => r
    | none => _analyze_resume_only env resume_text

/-- The prompts `analyze_resume_with_ai` builds, in the order the source
builds them: the resume-only prompt alone on the empty-JD path (line 317);
on the JD path the JD prompt (line 359) and then, exactly when the
generative attempt does not return a parsed object, the resume-only prompt
of the fallback call (line 370 reaching line 317). -/
def analyzePrompts (env : GroqEnv) (resume_text : String)
    (job_description : Option String) : List String :=
  let jd := pyStrip (job_description.getD "")
  if jd = "" then [build_resume_only_prompt resume_text]
  else
    let prompt := build_resume_jd_prompt resume_text jd
    let ok : Bool :=
      env.apiKey &&
        match _analyze_with_model env prompt true with
        | Except.ok (some _) => true
        | _ => false
    if ok then [prompt] else [prompt, build_resume_only_prompt resume_text]

/-- Python `os.path.splitext(path)[1]`: the extension starting at the last
dot of the final path component, empty when the component up to that dot
is entirely dots (hidden-file rule of the CPython implementation). -/
def splitextExt (path : String) : String :=
  let cs := path.toList
  let b := match pyRfind '/' cs with
    | some i => cs.drop (i + 1)
    | none => cs
  match pyRfind '.' b with
  | none => ""
  | some di =>
    if (b.take di).any (fun c => c ≠ '.') then String.mk (b.drop di) else ""

example : splitextExt "dir/resume.PDF" = ".PDF" := rfl

example : splitextExt ".bashrc" = "" := rfl

/-- Worker for `pySplitDot`. -/
def splitDotGo : List Char → List Char → List String
  | [], acc => [String.mk acc.reverse]
  | c :: cs, acc =>
    if c = '.' then String.mk acc.reverse :: splitDotGo cs []
    else splitDotGo cs (c :: acc)

/-- Python `file_path.split(".")`: always non-empty, keeps empty pieces. -/
def pySplitDot (s : String) : List String :=
  splitDotGo s.toList []

/-- The extension `file_path.split(".")[-1].lower()` (`extract_any.py` line 33). -/
def lastDotExt (path : String) : String :=
  pyLower ((pySplitDot path).getLastD "")

/-- External boundary of the document extractors: the filesystem and the
document libraries. `pathExists` is `os.path.exists`; `pypdf` and
`docx2txtRead` are the PyPDF2 and docx2txt readers called by `extract_any`;
`fitzText` and `docxParas` are the fitz page loop and the python-docx
paragraph join inside `extract_text_from_file`; `pdfminer` is
`pdfminer.high_level.extract_text` called by `extract_pdf.py`. An
`Except.error` carries the message `str(e)` of the raised exception. -/
structure ExtractEnv where
  pathExists : String → Bool
  pypdf : String → Except String String
  docx2txtRead : String → Except String String
  fitzText : String → Except String String
  docxParas : String → Except String String
  pdfminer : String → Except String String

/-- Model of `extract_any(path)` (`extract_any.py` lines 18-25): dispatch on the
lower-cased splitext extension; any extension other than `.pdf`/`.docx`
returns the literal string `"Unsupported file format"` without touching
the filesystem. -/
def extract_any (env : ExtractEnv) (path : String) : Except String String :=
  let ext := pyLower (splitextExt path)
  if ext = ".pdf" then env.pypdf path
  else if ext = ".docx" then env.docx2txtRead path
  else Except.ok "Unsupported file format"

/-- Model of `extract_text_from_file(file_path)` (`extract_any.py` lines 27-50): a
missing path returns the empty string before any extension dispatch; a pdf
goes through the fitz page loop with a final strip; a docx through the
paragraph join; any other extension returns the empty string. -/
def extract_text_from_file (env : ExtractEnv) (file_path : String) :
    Except String String :=
  if env.pathExists file_path = false then Except.ok ""
  else
    let ext := lastDotExt file_path
    if ext = "pdf" then
      match env.fitzText file_path with
      | Except.ok text => Except.ok (pyStrip text)
      | Except.error e => Except.error e
    else if ext = "docx" then env.docxParas file_path
    else Except.ok ""

/-- Model of `extract_text_from_pdf(file_path)` (`extract_pdf.py` lines 3-8): the
stripped pdfminer text on success, and the explicit error string
`"[ERROR extracting PDF] " + str(e)` on any exception. -/
def extract_text_from_pdf (env : ExtractEnv) (file_path : String) : String :=
  match env.pdfminer file_path with
  | Except.ok text => pyStrip text
  | Except.error e => "[ERROR extracting PDF] " ++ e

/-- Decidable check that a Report carries an integer score within [0, 100]. -/
def scoreInRange : Json → Bool
  | Json.obj l =>
    match lookupKey l "score" with
    | some (Json.num n) => decide (0 ≤ n ∧ n ≤ 100)
    | _ => false
  | _ => false

theorem lookupKey_setKey_self (l : List (String × Json)) (k : String) (v : Json) :
    lookupKey (setKey l k v) k = some v := by
  induction l with
  | nil => simp [setKey, lookupKey]
  | cons kv rest ih =>
    by_cases h : kv.1 = k
    · simp [setKey, lookupKey, h]
    · simp [setKey, lookupKey, h, ih]

theorem lookupKey_setKey_ne (l : List (String × Json)) (k : String) (v : Json)
    (k' : String) (h : k' ≠ k) :
    lookupKey (setKey l k v) k' = lookupKey l k' := by
  have hne : k ≠ k' := Ne.symm h
  induction l with
  | nil => simp [setKey, lookupKey, hne]
  | cons kv rest ih =>
    by_cases hk : kv.1 = k
    · obtain ⟨k₀, v₀⟩ := kv
      simp only at hk
      subst hk
      simp [setKey, lookupKey, hne]
    · by_cases hk' : kv.1 = k'
      · simp [setKey, lookupKey, hk, hk', h]
      · simp [setKey, lookupKey, hk, hk', ih]

theorem setKey_eq_of_lookup (l : List (String × Json)) (k : String) (v : Json)
    (h : lookupKey l k = some v) : setKey l k v = l := by
  induction l with
  | nil => simp [lookupKey] at h
  | cons kv rest ih =>
    by_cases hk : kv.1 = k
    · obtain ⟨k₀, v₀⟩ := kv
      simp only at hk
      subst hk
      simp [lookupKey] at h
      simp [setKey, h]
    · simp [lookupKey, hk] at h
      simp [setKey, hk, ih h]

theorem hasKey_setKey_of (l : List (String × Json)) (k' : String) (v : Json)
    (k : String) (h : hasKey l k = true) : hasKey (setKey l k' v) k = true := by
  by_cases hk : k = k'
  · subst hk
    simp [hasKey, lookupKey_setKey_self]
  · simpa [hasKey, lookupKey_setKey_ne _ _ _ _ hk] using h

theorem hasKey_of_mem (l : List (String × Json)) (k : String) (v : Json)
    (h : (k, v) ∈ l) : hasKey l k = true := by
  induction l with
  | nil => simp at h
  | cons kv rest ih =>
    rcases List.mem_cons.mp h with h₁ | h₂
    · simp [hasKey, lookupKey, ← h₁]
    · by_cases hk : kv.1 = k
      · simp [hasKey, lookupKey, hk]
      · simpa [hasKey, lookupKey, hk] using ih h₂

theorem lookupKey_append (l l' : List (String × Json)) (k : String) :
    lookupKey (l ++ l') k =
      match lookupKey l k with
      | some v => some v
      | none => lookupKey l' k := by
  induction l with
  | nil => simp [lookupKey]
  | cons kv rest ih =>
    by_cases hk : kv.1 = k
    · simp [lookupKey, hk]
    · simp [lookupKey, hk, ih]

theorem lookupKey_fillMissing (l ds : List (String × Json)) (k : String) :
    lookupKey (fillMissing l ds) k =
      match lookupKey l k with
      | some v => some v
      | none => lookupKey ds k := by
  induction ds generalizing l with
  | nil => cases h : lookupKey l k <;> simp [fillMissing, lookupKey, h]
  | cons kv ds ih =>
    obtain ⟨k₀, v₀⟩ := kv
    show lookupKey (fillMissing (if hasKey l k₀ then l else l ++ [(k₀, v₀)]) ds) k = _
    by_cases hp : hasKey l k₀
    · rw [if_pos hp, ih]
      by_cases hk : k₀ = k
      · subst hk
        have : ∃ v, lookupKey l k₀ = some v := by
          simpa [hasKey, Option.isSome_iff_exists] using hp
        obtain ⟨v, hv⟩ := this
        simp [hv, lookupKey]
      · cases h : lookupKey l k <;> simp [h, lookupKey, hk]
    · rw [if_neg hp, ih]
      by_cases hk : k₀ = k
      · subst hk
        have hnone : lookupKey l k₀ = none := by
          cases h : lookupKey l k₀ with
          | none => rfl
          | some v => exact absurd (by simp [hasKey, h]) hp
        simp [lookupKey_append, hnone, lookupKey]
      · cases h : lookupKey l k <;>
          simp [lookupKey_append, h, lookupKey, hk]

theorem fillMissing_of_complete (l ds : List (String × Json))
    (h : ∀ kv ∈ ds, hasKey l kv.1 = true) : fillMissing l ds = l := by
  induction ds with
  | nil => rfl
  | cons kv ds ih =>
    obtain ⟨k₀, v₀⟩ := kv
    show fillMissing (if hasKey l k₀ then l else l ++ [(k₀, v₀)]) ds = l
    rw [if_pos (h (k₀, v₀) (List.mem_cons_self _ _))]
    exact ih fun kv hkv => h kv (List.mem_cons_of_mem _ hkv)

theorem hasKey_fillMissing_of_mem (l ds : List (String × Json)) (k : String)
    (v : Json) (h : (k, v) ∈ ds) : hasKey (fillMissing l ds) k = true := by
  rw [hasKey, lookupKey_fillMissing]
  cases hl : lookupKey l k with
  | some w => simp
  | none =>
    have := hasKey_of_mem ds k v h
    simpa [hasKey, Option.isSome_iff_exists] using this

theorem hasKey_fillMissing_of_hasKey (l ds : List (String × Json)) (k : String)
    (h : hasKey l k = true) : hasKey (fillMissing l ds) k = true := by
  rw [hasKey, lookupKey_fillMissing]
  obtain ⟨v, hv⟩ : ∃ v, lookupKey l k = some v := by
    simpa [hasKey, Option.isSome_iff_exists] using h
  simp [hv]

theorem ensureObjAt_lookup_ne (l : List (String × Json)) (k k' : String)
    (h : k' ≠ k) : lookupKey (ensureObjAt l k) k' = lookupKey l k' := by
  unfold ensureObjAt
  split
  · rfl
  · exact lookupKey_setKey_ne _ _ _ _ h

theorem ensureObjAt_obj (l : List (String × Json)) (k : String) :
    ∃ e, lookupKey (ensureObjAt l k) k = some (Json.obj e) := by
  unfold ensureObjAt
  split
  · next e heq => exact ⟨e, heq⟩
  · exact ⟨[], lookupKey_setKey_self _ _ _⟩

theorem ensureObjAt_of_obj (l : List (String × Json)) (k : String)
    (e : List (String × Json)) (h : lookupKey l k = some (Json.obj e)) :
    ensureObjAt l k = l := by
  unfold ensureObjAt
  rw [h]

theorem hasKey_ensureObjAt (l : List (String × Json)) (k k' : String)
    (h : hasKey l k' = true) : hasKey (ensureObjAt l k) k' = true := by
  unfold ensureObjAt
  split
  · exact h
  · exact hasKey_setKey_of _ _ _ _ h

theorem objFieldsAt_of_lookup (l : List (String × Json)) (k : String)
    (e : List (String × Json)) (h : lookupKey l k = some (Json.obj e)) :
    objFieldsAt l k = e := by
  unfold objFieldsAt
  rw [h]

theorem fillSubAt_lookup_self (l : List (String × Json)) (k : String)
    (ds : List (String × Json)) :
    lookupKey (fillSubAt l k ds) k =
      some (Json.obj (fillMissing (objFieldsAt l k) ds)) :=
  lookupKey_setKey_self _ _ _

theorem fillSubAt_lookup_ne (l : List (String × Json)) (k : String)
    (ds : List (String × Json)) (k' : String) (h : k' ≠ k) :
    lookupKey (fillSubAt l k ds) k' = lookupKey l k' :=
  lookupKey_setKey_ne _ _ _ _ h

theorem hasKey_fillSubAt (l : List (String × Json)) (k : String)
    (ds : List (String × Json)) (k' : String) (h : hasKey l k' = true) :
    hasKey (fillSubAt l k ds) k' = true :=
  hasKey_setKey_of _ _ _ _ h

theorem setSubKey_lookup_self (l : List (String × Json)) (k sub : String) (v : Json) :
    lookupKey (setSubKey l k sub v) k =
      some (Json.obj (setKey (objFieldsAt l k) sub v)) :=
  lookupKey_setKey_self _ _ _

theorem setSubKey_lookup_ne (l : List (String × Json)) (k sub : String) (v : Json)
    (k' : String) (h : k' ≠ k) :
    lookupKey (setSubKey l k sub v) k' = lookupKey l k' :=
  lookupKey_setKey_ne _ _ _ _ h

theorem hasKey_setSubKey (l : List (String × Json)) (k sub : String) (v : Json)
    (k' : String) (h : hasKey l k' = true) :
    hasKey (setSubKey l k sub v) k' = true :=
  hasKey_setKey_of _ _ _ _ h

theorem setSubKey_eq_of_lookup (l : List (String × Json)) (k sub : String) (v : Json)
    (e : List (String × Json)) (he : lookupKey l k = some (Json.obj e))
    (hv : lookupKey e sub = some v) : setSubKey l k sub v = l := by
  unfold setSubKey
  rw [objFieldsAt_of_lookup _ _ _ he, setKey_eq_of_lookup _ _ _ hv]
  exact setKey_eq_of_lookup _ _ _ he

theorem jdOverride_lookup_other (l : List (String × Json)) (k : String)
    (h1 : k ≠ "missing_keywords") (h2 : k ≠ "skills_relevance")
    (h3 : k ≠ "extracted") : lookupKey (jdOverride l) k = lookupKey l k := by
  unfold jdOverride
  rw [setSubKey_lookup_ne _ _ _ _ _ h3, setSubKey_lookup_ne _ _ _ _ _ h2,
    lookupKey_setKey_ne _ _ _ _ h1]

theorem hasKey_jdOverride (l : List (String × Json)) (k : String)
    (h : hasKey l k = true) : hasKey (jdOverride l) k = true := by
  unfold jdOverride
  exact hasKey_setSubKey _ _ _ _ _
    (hasKey_setSubKey _ _ _ _ _ (hasKey_setKey_of _ _ _ _ h))

theorem mergeFieldsCore_lookup_other (f : List (String × Json)) (k : String)
    (h1 : k ≠ "extracted") (h2 : k ≠ "skills_relevance") :
    lookupKey (mergeFieldsCore f) k = lookupKey (fillMissing f topDefaults) k := by
  unfold mergeFieldsCore
  rw [fillSubAt_lookup_ne _ _ _ _ h2, fillSubAt_lookup_ne _ _ _ _ h1,
    ensureObjAt_lookup_ne _ _ _ h2, ensureObjAt_lookup_ne _ _ _ h1]

theorem mergeFieldsCore_facts (f : List (String × Json)) :
    ∃ e sr,
      lookupKey (mergeFieldsCore f) "extracted" = some (Json.obj e) ∧
      lookupKey (mergeFieldsCore f) "skills_relevance" = some (Json.obj sr) ∧
      (∀ kv ∈ extractedDefaults, hasKey e kv.1 = true) ∧
      (∀ kv ∈ skillsRelevanceDefaults, hasKey sr kv.1 = true) ∧
      (∀ kv ∈ topDefaults, hasKey (mergeFieldsCore f) kv.1 = true) := by
  have hne : ("extracted" : String) ≠ "skills_relevance" := by decide
  obtain ⟨e0, he0⟩ := ensureObjAt_obj (fillMissing f topDefaults) "extracted"
  set l1 := ensureObjAt (fillMissing f topDefaults) "extracted" with hl1
  obtain ⟨sr0, hsr0⟩ := ensureObjAt_obj l1 "skills_relevance"
  set l2 := ensureObjAt l1 "skills_relevance" with hl2
  have he2 : lookupKey l2 "extracted" = some (Json.obj e0) := by
    rw [hl2, ensureObjAt_lookup_ne _ _ _ hne]
    exact he0
  set l3 := fillSubAt l2 "extracted" extractedDefaults with hl3
  have he3 : lookupKey l3 "extracted" =
      some (Json.obj (fillMissing e0 extractedDefaults)) := by
    rw [hl3, fillSubAt_lookup_self, objFieldsAt_of_lookup _ _ _ he2]
  have hsr3 : lookupKey l3 "skills_relevance" = some (Json.obj sr0) := by
    rw [hl3, fillSubAt_lookup_ne _ _ _ _ (Ne.symm hne)]
    exact hsr0
  have hcore : mergeFieldsCore f = fillSubAt l3 "skills_relevance" skillsRelevanceDefaults := by
    rw [hl3, hl2, hl1]
    rfl
  refine ⟨fillMissing e0 extractedDefaults, fillMissing sr0 skillsRelevanceDefaults,
    ?_, ?_, ?_, ?_, ?_⟩
  · rw [hcore, fillSubAt_lookup_ne _ _ _ _ hne]
    exact he3
  · rw [hcore, fillSubAt_lookup_self, objFieldsAt_of_lookup _ _ _ hsr3]
  · intro kv hkv
    exact hasKey_fillMissing_of_mem _ _ kv.1 kv.2 (by simpa using hkv)
  · intro kv hkv
    exact hasKey_fillMissing_of_mem _ _ kv.1 kv.2 (by simpa using hkv)
  · intro kv hkv
    have h0 : hasKey (fillMissing f topDefaults) kv.1 = true :=
      hasKey_fillMissing_of_mem _ _ kv.1 kv.2 (by simpa using hkv)
    rw [hcore]
    exact hasKey_fillSubAt _ _ _ _
      (hasKey_fillSubAt _ _ _ _
        (hasKey_ensureObjAt _ _ _ (hasKey_ensureObjAt _ _ _ h0)))

theorem mergeFields_true (f : List (String × Json)) :
    mergeFields f true = mergeFieldsCore f := by
  unfold mergeFields
  simp

theorem mergeFields_false (f : List (String × Json)) :
    mergeFields f false = jdOverride (mergeFieldsCore f) := by
  unfold mergeFields
  simp

theorem normalizedFields_mergeFields (f : List (String × Json)) (jd : Bool) :
    NormalizedFields (mergeFields f jd) jd := by
  obtain ⟨e, sr, he, hsr, hesub, hsrsub, htop⟩ := mergeFieldsCore_facts f
  cases jd with
  | true =>
    rw [mergeFields_true]
    exact ⟨htop, ⟨e, he, hesub, fun h => Bool.noConfusion h⟩,
      ⟨sr, hsr, hsrsub, fun h => Bool.noConfusion h⟩, fun h => Bool.noConfusion h⟩
  | false =>
    rw [mergeFields_false]
    unfold jdOverride
    set c := mergeFieldsCore f with hc
    set m1 := setKey c "missing_keywords" (Json.arr []) with hm1
    set m2 := setSubKey m1 "skills_relevance" "missing" (Json.arr []) with hm2
    have hne1 : ("skills_relevance" : String) ≠ "missing_keywords" := by decide
    have hne2 : ("extracted" : String) ≠ "missing_keywords" := by decide
    have hne3 : ("extracted" : String) ≠ "skills_relevance" := by decide
    have hsr1 : lookupKey m1 "skills_relevance" = some (Json.obj sr) := by
      rw [hm1, lookupKey_setKey_ne _ _ _ _ hne1]
      exact hsr
    have he2 : lookupKey m2 "extracted" = some (Json.obj e) := by
      rw [hm2, setSubKey_lookup_ne _ _ _ _ _ hne3, hm1,
        lookupKey_setKey_ne _ _ _ _ hne2]
      exact he
    refine ⟨?_, ?_, ?_, ?_⟩
    · intro kv hkv
      exact hasKey_setSubKey _ _ _ _ _
        (hasKey_setSubKey _ _ _ _ _ (hasKey_setKey_of _ _ _ _ (htop kv hkv)))
    · refine ⟨setKey e "position" (Json.str ""), ?_, ?_, ?_⟩
      · rw [setSubKey_lookup_self, objFieldsAt_of_lookup _ _ _ he2]
      · intro kv hkv
        exact hasKey_setKey_of _ _ _ _ (hesub kv hkv)
      · intro _
        exact lookupKey_setKey_self _ _ _
    · refine ⟨setKey sr "missing" (Json.arr []), ?_, ?_, ?_⟩
      · rw [setSubKey_lookup_ne _ _ _ _ _ (Ne.symm hne3), hm2,
          setSubKey_lookup_self, objFieldsAt_of_lookup _ _ _ hsr1]
      · intro kv hkv
        exact hasKey_setKey_of _ _ _ _ (hsrsub kv hkv)
      · intro _
        exact lookupKey_setKey_self _ _ _
    · intro _
      rw [setSubKey_lookup_ne _ _ _ _ _ (Ne.symm hne2), hm2,
        setSubKey_lookup_ne _ _ _ _ _ (Ne.symm hne1), hm1]
      exact lookupKey_setKey_self _ _ _

theorem mergeFields_of_normalized (l : List (String × Json)) (jd : Bool)
    (h : NormalizedFields l jd) : mergeFields l jd = l := by
  obtain ⟨htop, ⟨e, he, hesub, hepos⟩, ⟨sr, hsr, hsrsub, hsrmiss⟩, hmk⟩ := h
  have h0 : fillMissing l topDefaults = l := fillMissing_of_complete _ _ htop
  have h1 : ensureObjAt l "extracted" = l := ensureObjAt_of_obj _ _ _ he
  have h2 : ensureObjAt l "skills_relevance" = l := ensureObjAt_of_obj _ _ _ hsr
  have h3 : fillSubAt l "extracted" extractedDefaults = l := by
    unfold fillSubAt
    rw [objFieldsAt_of_lookup _ _ _ he, fillMissing_of_complete _ _ hesub]
    exact setKey_eq_of_lookup _ _ _ he
  have h4 : fillSubAt l "skills_relevance" skillsRelevanceDefaults = l := by
    unfold fillSubAt
    rw [objFieldsAt_of_lookup _ _ _ hsr, fillMissing_of_complete _ _ hsrsub]
    exact setKey_eq_of_lookup _ _ _ hsr
  have hcore : mergeFieldsCore l = l := by
    unfold mergeFieldsCore
    rw [h0, h1, h2, h3, h4]
  cases jd with
  | true =>
    rw [mergeFields_true]
    exact hcore
  | false =>
    rw [mergeFields_false, hcore]
    unfold jdOverride
    rw [setKey_eq_of_lookup _ _ _ (hmk rfl)]
    rw [setSubKey_eq_of_lookup _ _ _ _ _ hsr (hsrmiss rfl)]
    exact setSubKey_eq_of_lookup _ _ _ _ _ he (hepos rfl)

theorem jsonFields_obj (f : List (String × Json)) : jsonFields (Json.obj f) = f := rfl

theorem merge_defaults_def (x : Json) (jd : Bool) :
    _merge_defaults x jd = Json.obj (mergeFields (jsonFields x) jd) := rfl

theorem objComplete_of (ds l : List (String × Json))
    (h : ∀ kv ∈ ds, hasKey l kv.1 = true) : objComplete ds l = true := by
  simpa [objComplete, List.all_eq_true] using h

theorem schemaComplete_of_normalized (l : List (String × Json)) (jd : Bool)
    (h : NormalizedFields l jd) : schemaComplete (Json.obj l) = true := by
  obtain ⟨htop, ⟨e, he, hesub, _⟩, ⟨sr, hsr, hsrsub, _⟩, _⟩ := h
  unfold schemaComplete
  simp [he, hsr, objComplete_of _ _ htop, objComplete_of _ _ hesub,
    objComplete_of _ _ hsrsub]

theorem schemaComplete_merge (y : Json) (jd : Bool) :
    schemaComplete (_merge_defaults y jd) = true := by
  rw [merge_defaults_def]
  exact schemaComplete_of_normalized _ jd (normalizedFields_mergeFields _ jd)

theorem jdAbsentOk_of_normalized (l : List (String × Json))
    (h : NormalizedFields l false) : jdAbsentOk (Json.obj l) = true := by
  obtain ⟨htop, ⟨e, he, hesub, hepos⟩, ⟨sr, hsr, hsrsub, hsrm⟩, hmk⟩ := h
  unfold jdAbsentOk
  simp [hmk rfl, he, hsr, hepos rfl, hsrm rfl]

theorem jdAbsentOk_merge (y : Json) : jdAbsentOk (_merge_defaults y false) = true := by
  rw [merge_defaults_def]
  exact jdAbsentOk_of_normalized _ (normalizedFields_mergeFields _ false)

theorem analyze_with_model_shape (env : GroqEnv) (prompt : String) (jdp : Bool)
    (j : Json) (h : _analyze_with_model env prompt jdp = Except.ok (some j)) :
    ∃ p, j = _merge_defaults p jdp := by
  unfold _analyze_with_model at h
  cases hr : env.respond prompt with
  | error e =>
    rw [hr] at h
    simp at h
  | ok text =>
    rw [hr] at h
    dsimp only at h
    cases hp : _safe_parse_json text with
    | none =>
      rw [hp] at h
      simp at h
    | some p =>
      rw [hp] at h
      simp at h
      exact ⟨p, h.symm⟩

theorem analyze_with_model_of_error (env : GroqEnv) (p : String) (jdp : Bool)
    (h : env.respond p = Except.error ()) :
    _analyze_with_model env p jdp = Except.error () := by
  unfold _analyze_with_model
  rw [h]

theorem analyze_with_model_of_unparseable (env : GroqEnv) (p : String) (jdp : Bool)
    (t : String) (h : env.respond p = Except.ok t)
    (hp : _safe_parse_json t = none) :
    _analyze_with_model env p jdp = Except.ok none := by
  unfold _analyze_with_model
  rw [h]
  dsimp only
  rw [hp]

theorem analyze_resume_only_shape (env : GroqEnv) (r : String) :
    ∃ y, _analyze_resume_only env r = _merge_defaults y false := by
  unfold _analyze_resume_only
  cases hk : env.apiKey with
  | false =>
    simp [hk]
    exact ⟨_, rfl⟩
  | true =>
    cases hm : _analyze_with_model env (build_resume_only_prompt r) false with
    | error e =>
      simp [hk, hm]
      exact ⟨_, rfl⟩
    | ok o =>
      cases o with
      | none =>
        simp [hk, hm]
        exact ⟨_, rfl⟩
      | some parsed =>
        simp [hk, hm]
        obtain ⟨p, hp⟩ := analyze_with_model_shape env _ false parsed hm
        exact ⟨p, hp⟩

theorem analyze_empty_jd (env : GroqEnv) (r : String) (j : Option String)
    (h : pyStrip (j.getD "") = "") :
    analyze_resume_with_ai env r j = _analyze_resume_only env r := by
  unfold analyze_resume_with_ai
  simp [h]

theorem analyze_jd_path_fail (env : GroqEnv) (r : String) (j : Option String)
    (hne : pyStrip (j.getD "") ≠ "")
    (hfail : env.apiKey = false ∨
      _analyze_with_model env (build_resume_jd_prompt r (pyStrip (j.getD ""))) true =
        Except.error () ∨
      _analyze_with_model env (build_resume_jd_prompt r (pyStrip (j.getD ""))) true =
        Except.ok none) :
    analyze_resume_with_ai env r j = _analyze_resume_only env r := by
  unfold analyze_resume_with_ai
  rcases hfail with hk | hm | hm
  · simp [hne, hk]
  · simp [hne, hm]
  · simp [hne, hm]

theorem analyze_jd_path_ok (env : GroqEnv) (r : String) (j : Option String)
    (hne : pyStrip (j.getD "") ≠ "") (parsed : Json)
    (hm : _analyze_with_model env (build_resume_jd_prompt r (pyStrip (j.getD ""))) true =
        Except.ok (some parsed)) (hk : env.apiKey = true) :
    analyze_resume_with_ai env r j = parsed := by
  unfold analyze_resume_with_ai
  simp [hne, hm, hk]

theorem analyze_shape (env : GroqEnv) (r : String) (j : Option String) :
    ∃ y b, analyze_resume_with_ai env r j = _merge_defaults y b := by
  by_cases hjd : pyStrip (j.getD "") = ""
  · obtain ⟨y, hy⟩ := analyze_resume_only_shape env r
    exact ⟨y, false, by rw [analyze_empty_jd env r j hjd, hy]⟩
  · cases hk : env.apiKey with
    | false =>
      obtain ⟨y, hy⟩ := analyze_resume_only_shape env r
      refine ⟨y, false, ?_⟩
      rw [analyze_jd_path_fail env r j hjd (Or.inl hk), hy]
    | true =>
      cases hm : _analyze_with_model env
          (build_resume_jd_prompt r (pyStrip (j.getD ""))) true with
      | error e =>
        obtain ⟨y, hy⟩ := analyze_resume_only_shape env r
        refine ⟨y, false, ?_⟩
        cases e
        rw [analyze_jd_path_fail env r j hjd (Or.inr (Or.inl hm)), hy]
      | ok o =>
        cases o with
        | none =>
          obtain ⟨y, hy⟩ := analyze_resume_only_shape env r
          refine ⟨y, false, ?_⟩
          rw [analyze_jd_path_fail env r j hjd (Or.inr (Or.inr hm)), hy]
        | some parsed =>
          obtain ⟨p, hp⟩ := analyze_with_model_shape env _ true parsed hm
          exact ⟨p, true, by rw [analyze_jd_path_ok env r j hjd parsed hm hk, hp]⟩

theorem analyze_resume_only_fallback (env : GroqEnv) (r : String)
    (hfail : ∀ p t, env.respond p = Except.ok t → _safe_parse_json t = none) :
    _analyze_resume_only env r = _merge_defaults (fallbackDict r) false := by
  unfold _analyze_resume_only
  cases hk : env.apiKey with
  | false => simp [hk]
  | true =>
    cases hm : env.respond (build_resume_only_prompt r) with
    | error e =>
      cases e
      have h1 := analyze_with_model_of_error env (build_resume_only_prompt r) false hm
      simp [hk, h1]
    | ok t =>
      have h1 := analyze_with_model_of_unparseable env (build_resume_only_prompt r)
        false t hm (hfail _ _ hm)
      simp [hk, h1]

theorem analyze_fallback (env : GroqEnv) (r : String) (j : Option String)
    (hfail : ∀ p t, env.respond p = Except.ok t → _safe_parse_json t = none) :
    analyze_resume_with_ai env r j = _merge_defaults (fallbackDict r) false := by
  by_cases hjd : pyStrip (j.getD "") = ""
  · rw [analyze_empty_jd env r j hjd, analyze_resume_only_fallback env r hfail]
  · have hdisj : env.apiKey = false ∨
        _analyze_with_model env (build_resume_jd_prompt r (pyStrip (j.getD ""))) true =
          Except.error () ∨
        _analyze_with_model env (build_resume_jd_prompt r (pyStrip (j.getD ""))) true =
          Except.ok none := by
      cases hk : env.apiKey with
      | false => exact Or.inl rfl
      | true =>
        cases hm : env.respond (build_resume_jd_prompt r (pyStrip (j.getD ""))) with
        | error e =>
          cases e
          exact Or.inr (Or.inl (analyze_with_model_of_error env _ true hm))
        | ok t =>
          exact Or.inr (Or.inr
            (analyze_with_model_of_unparseable env _ true t hm (hfail _ _ hm)))
    rw [analyze_jd_path_fail env r j hjd hdisj,
      analyze_resume_only_fallback env r hfail]

theorem of_objComplete (ds l : List (String × Json)) (h : objComplete ds l = true) :
    ∀ kv ∈ ds, hasKey l kv.1 = true := by
  simpa [objComplete, List.all_eq_true] using h

theorem fallbackDict_normalized (r : String) :
    NormalizedFields (jsonFields (fallbackDict r)) false := by
  refine ⟨of_objComplete _ _ rfl,
    ⟨objFieldsAt (jsonFields (fallbackDict r)) "extracted", rfl,
      of_objComplete _ _ rfl, fun _ => rfl⟩,
    ⟨objFieldsAt (jsonFields (fallbackDict r)) "skills_relevance", rfl,
      of_objComplete _ _ rfl, fun _ => rfl⟩,
    fun _ => rfl⟩

theorem merge_fallback (r : String) :
    _merge_defaults (fallbackDict r) false = fallbackDict r := by
  rw [merge_defaults_def, mergeFields_of_normalized _ _ (fallbackDict_normalized r)]
  rfl

/-- C1: for every input `x`, the Report `_merge_defaults x false` has
`missing_keywords = []`, `skills_relevance.missing = []` and
`extracted.position = ""` regardless of what `x` supplied for those fields,
and consequently every Report `analyze_resume_with_ai` produces for an
empty or absent job_description satisfies the three equalities. -/
theorem c1_jd_absence :
    (∀ x : Json, jdAbsentOk (_merge_defaults x false) = true) ∧
    (∀ (env : GroqEnv) (r : String) (j : Option String),
      pyStrip (j.getD "") = "" →
      jdAbsentOk (analyze_resume_with_ai env r j) = true) := by
  refine ⟨fun x => jdAbsentOk_merge x, ?_⟩
  intro env r j h
  rw [analyze_empty_jd env r j h]
  obtain ⟨y, hy⟩ := analyze_resume_only_shape env r
  rw [hy]
  exact jdAbsentOk_merge y

theorem c1_jd_absence_witness :
    jdAbsentOk (analyze_resume_with_ai
      ⟨false, fun _ => Except.error ()⟩
      "python developer" none) = true :=
  c1_jd_absence.2 ⟨false, fun _ => Except.error ()⟩ "python developer" none rfl

/-- C2: the Normalizer is a total function taking any value, dicts and
non-dicts such as null alike, to a Report carrying every schema field, and
every Report `analyze_resume_with_ai` returns is schema complete (in the
embedding every raised exception of the generative path appears as an
`Except.error` oracle answer and is absorbed, so `analyze` returns a value
of the Report type on all inputs). -/
theorem c2_totality :
    (∀ (x : Json) (jd : Bool), schemaComplete (_merge_defaults x jd) = true) ∧
    (∀ (env : GroqEnv) (r : String) (j : Option String),
      schemaComplete (analyze_resume_with_ai env r j) = true) := by
  refine ⟨fun x jd => schemaComplete_merge x jd, ?_⟩
  intro env r j
  obtain ⟨y, b, hy⟩ := analyze_shape env r j
  rw [hy]
  exact schemaComplete_merge y b

/-- C6: the Normalizer is idempotent: applying `_merge_defaults` to its own
output, with the same `jd_present`, changes nothing. -/
theorem c6_normalizer_idempotent (x : Json) (jd : Bool) :
    _merge_defaults (_merge_defaults x jd) jd = _merge_defaults x jd := by
  rw [merge_defaults_def x jd,
    merge_defaults_def (Json.obj (mergeFields (jsonFields x) jd)) jd, jsonFields_obj]
  exact congrArg Json.obj
    (mergeFields_of_normalized _ _ (normalizedFields_mergeFields _ _))

/-- C3 counterexample: the pipeline does not clamp or reject out-of-range
scores. With the generation service answering the JSON object
`\x7b"score": 150\x7d`, `analyze_resume_with_ai` returns a Report whose
score is 150, outside [0, 100]. -/
theorem c3_score_counterexample :
    scoreInRange (analyze_resume_with_ai
      ⟨true, fun _ => Except.ok " \x7b\"score\": 150\x7d "⟩
      "resume text" (some "data engineer")) = false := by
  rfl

/-- C3 amended: the Normalizer passes any upstream-supplied score through
unchanged, applying no clamping or rejection; only when the upstream object
carries no score at all does the default 50 (which lies within [0, 100])
appear. -/
theorem c3_score_passthrough (x : Json) (jd : Bool) :
    lookupKey (jsonFields (_merge_defaults x jd)) "score" =
      some ((lookupKey (jsonFields x) "score").getD (Json.num 50)) := by
  have h1 : ("score" : String) ≠ "extracted" := by decide
  have h2 : ("score" : String) ≠ "skills_relevance" := by decide
  have h3 : ("score" : String) ≠ "missing_keywords" := by decide
  rw [merge_defaults_def, jsonFields_obj]
  cases jd with
  | true =>
    rw [mergeFields_true, mergeFieldsCore_lookup_other _ _ h1 h2,
      lookupKey_fillMissing]
    cases h : lookupKey (jsonFields x) "score" <;> rfl
  | false =>
    rw [mergeFields_false, jdOverride_lookup_other _ _ h3 h2 h1,
      mergeFieldsCore_lookup_other _ _ h1 h2, lookupKey_fillMissing]
    cases h : lookupKey (jsonFields x) "score" <;> rfl

/-- C4: `_safe_parse_json` tries a direct parse of the whole stripped text
first; if that fails it parses the inclusive substring between the first
left brace and the last right brace when such a pair exists in order; with
no brace pair it fails with none; and on the prose-wrapped example of the
spec it recovers the embedded object with score 77. -/
theorem c4_safe_parse_json :
    (∀ raw j, loads (pyStrip raw) = some j → _safe_parse_json raw = some j) ∧
    (∀ raw, loads (pyStrip raw) = none →
      ∀ s e, pyFind lbrace (pyStrip raw).toList = some s →
        pyRfind rbrace (pyStrip raw).toList = some e → s < e →
        _safe_parse_json raw =
          loads (String.mk
            (List.take (e + 1 - s) (List.drop s (pyStrip raw).toList)))) ∧
    (∀ raw, loads (pyStrip raw) = none →
      pyFind lbrace (pyStrip raw).toList = none →
      _safe_parse_json raw = none) ∧
    _safe_parse_json
        "Here is the result: \x7b\"score\": 77, \"matched_keywords\": [\"python\"]\x7d Thanks!" =
      some (Json.obj [("score", Json.num 77),
        ("matched_keywords", Json.arr [Json.str "python"])]) := by
  refine ⟨?_, ?_, ?_, rfl⟩
  · intro raw j h
    unfold _safe_parse_json
    dsimp only
    rw [h]
  · intro raw hnone s e hs he hlt
    unfold _safe_parse_json
    dsimp only
    rw [hnone]
    dsimp only
    rw [hs, he]
    dsimp only
    rw [if_pos hlt]
  · intro raw hnone hfind
    unfold _safe_parse_json
    dsimp only
    rw [hnone]
    dsimp only
    rw [hfind]

theorem c4_witness :
    _safe_parse_json " 7 " = some (Json.num 7) ∧
    _safe_parse_json "a\x7b\x7db" =
      loads (String.mk (List.take 2 (List.drop 1 (pyStrip "a\x7b\x7db").toList))) ∧
    _safe_parse_json "no braces at all" = none :=
  ⟨c4_safe_parse_json.1 " 7 " (Json.num 7) rfl,
   c4_safe_parse_json.2.1 "a\x7b\x7db" rfl 1 2 rfl rfl (by decide),
   c4_safe_parse_json.2.2.1 "no braces at all" rfl rfl⟩

/-- C5: the heuristic fallback scorer is deterministic with no external
calls: whenever every resolved response text carries no parseable JSON,
`analyze_resume_with_ai` returns exactly the fallback Report normalized
with `jd_present = false`: score 55, the first five matched vocabulary
tokens as matched_keywords and extracted.skills, the first three as
skills_relevance.matched, the 40-token experience bucket, and
error = "fallback_used". -/
theorem c5_fallback (env : GroqEnv) (r : String) (j : Option String)
    (hfail : ∀ p t, env.respond p = Except.ok t → _safe_parse_json t = none) :
    analyze_resume_with_ai env r j = _merge_defaults (fallbackDict r) false ∧
    lookupKey (jsonFields (analyze_resume_with_ai env r j)) "score" =
      some (Json.num 55) ∧
    lookupKey (jsonFields (analyze_resume_with_ai env r j)) "error" =
      some (Json.str "fallback_used") ∧
    lookupKey (jsonFields (analyze_resume_with_ai env r j)) "matched_keywords" =
      some (Json.arr (((fallbackSkills r).take 5).map Json.str)) ∧
    lookupKey (objFieldsAt (jsonFields (analyze_resume_with_ai env r j)) "extracted")
        "skills" =
      some (Json.arr (((fallbackSkills r).take 5).map Json.str)) ∧
    lookupKey (objFieldsAt (jsonFields (analyze_resume_with_ai env r j)) "extracted")
        "experience" =
      some (Json.str (if 40 < (fallbackWords r).length then "1-2 years" else "Fresher")) ∧
    lookupKey (objFieldsAt (jsonFields (analyze_resume_with_ai env r j))
        "skills_relevance") "matched" =
      some (Json.arr (((fallbackSkills r).take 3).map Json.str)) := by
  have h := analyze_fallback env r j hfail
  rw [h, merge_fallback r]
  exact ⟨rfl, rfl, rfl, rfl, rfl, rfl, rfl⟩

theorem c5_fallback_witness :
    lookupKey (jsonFields (analyze_resume_with_ai
      ⟨true, fun _ => Except.ok "I cannot answer that, human."⟩
      "python and java developer" (some "Need Kubernetes"))) "score" =
        some (Json.num 55) ∧
    lookupKey (jsonFields (analyze_resume_with_ai
      ⟨true, fun _ => Except.ok "I cannot answer that, human."⟩
      "python and java developer" (some "Need Kubernetes"))) "error" =
        some (Json.str "fallback_used") := by
  have hfail : ∀ p t,
      (⟨true, fun _ => Except.ok "I cannot answer that, human."⟩ : GroqEnv).respond p =
        Except.ok t → _safe_parse_json t = none := by
    intro p t h
    have h2 : (Except.ok "I cannot answer that, human." : Except Unit String) =
        Except.ok t := h
    injection h2 with h3
    subst h3
    rfl
  exact ⟨(c5_fallback _ _ _ hfail).2.1, (c5_fallback _ _ _ hfail).2.2.1⟩

/-- C7: which prompt variant `analyze_resume_with_ai` builds for its
generative attempt is determined solely by whether the job description is
non-empty after trimming: the first prompt built is the resume-only prompt
exactly when the trimmed JD (with None as "") is empty, and the resume+JD
prompt otherwise; on the empty side the resume-only prompt is the only
prompt ever built. Both builders are plain functions of their string
arguments (pure by construction in the embedding; the source builders
perform no calls). -/
theorem c7_prompt_selection (env : GroqEnv) (r : String) (j : Option String) :
    (analyzePrompts env r j).head? =
      some (if pyStrip (j.getD "") = "" then build_resume_only_prompt r
            else build_resume_jd_prompt r (pyStrip (j.getD ""))) ∧
    (pyStrip (j.getD "") = "" →
      analyzePrompts env r j = [build_resume_only_prompt r]) := by
  unfold analyzePrompts
  by_cases h : pyStrip (j.getD "") = ""
  · simp [h]
  · refine ⟨?_, fun hc => absurd hc h⟩
    simp only [if_neg h]
    split <;> simp [h]

theorem c7_prompt_selection_witness :
    analyzePrompts ⟨false, fun _ => Except.error ()⟩ "resume body" none =
      [build_resume_only_prompt "resume body"] :=
  (c7_prompt_selection ⟨false, fun _ => Except.error ()⟩ "resume body" none).2 rfl

/-- C8: the extractors distinguish their failure modes without raising:
`extract_any` answers the literal string "Unsupported file format" for any
extension other than .pdf/.docx; `extract_text_from_file` answers the empty
string for a path that does not exist; and an unreadable document gives the
distinct explicit error string of `extract_text_from_pdf`. -/
theorem c8_extractor_failure_modes (env : ExtractEnv) (p1 p2 p3 e : String)
    (h1 : pyLower (splitextExt p1) ≠ ".pdf")
    (h2 : pyLower (splitextExt p1) ≠ ".docx")
    (h3 : env.pathExists p2 = false)
    (h4 : env.pdfminer p3 = Except.error e) :
    extract_any env p1 = Except.ok "Unsupported file format" ∧
    extract_text_from_file env p2 = Except.ok "" ∧
    extract_text_from_pdf env p3 = "[ERROR extracting PDF] " ++ e := by
  refine ⟨?_, ?_, ?_⟩
  · unfold extract_any
    simp [h1, h2]
  · unfold extract_text_from_file
    simp [h3]
  · unfold extract_text_from_pdf
    rw [h4]

theorem c8_extractor_failure_modes_witness :
    extract_any
      ⟨fun _ => false, fun _ => Except.error "x", fun _ => Except.error "x",
       fun _ => Except.error "x", fun _ => Except.error "x",
       fun _ => Except.error "boom"⟩ "resume.txt" =
        Except.ok "Unsupported file format" ∧
    extract_text_from_file
      ⟨fun _ => false, fun _ => Except.error "x", fun _ => Except.error "x",
       fun _ => Except.error "x", fun _ => Except.error "x",
       fun _ => Except.error "boom"⟩ "resume.pdf" = Except.ok "" ∧
    extract_text_from_pdf
      ⟨fun _ => false, fun _ => Except.error "x", fun _ => Except.error "x",
       fun _ => Except.error "x", fun _ => Except.error "x",
       fun _ => Except.error "boom"⟩ "resume.pdf" =
        "[ERROR extracting PDF] " ++ "boom" :=
  c8_extractor_failure_modes _ "resume.txt" "resume.pdf" "resume.pdf" "boom"
    (by decide) (by decide) rfl rfl

/-- C9: with a non-empty job description, when the generative path fails
(no credential, a raised request error, or an unparseable response) the
fallback is the resume-only analysis normalized with `jd_present = false`,
so the returned Report has `extracted.position = ""`,
`missing_keywords = []` and `skills_relevance.missing = []` even though a
job description was supplied. -/
theorem c9_jd_fallback_empties (env : GroqEnv) (r : String) (j : Option String)
    (hne : pyStrip (j.getD "") ≠ "")
    (hfail : env.apiKey = false ∨
      env.respond (build_resume_jd_prompt r (pyStrip (j.getD ""))) =
        Except.error () ∨
      (∃ t, env.respond (build_resume_jd_prompt r (pyStrip (j.getD ""))) =
          Except.ok t ∧ _safe_parse_json t = none)) :
    jdAbsentOk (analyze_resume_with_ai env r j) = true := by
  have hd : env.apiKey = false ∨
      _analyze_with_model env (build_resume_jd_prompt r (pyStrip (j.getD ""))) true =
        Except.error () ∨
      _analyze_with_model env (build_resume_jd_prompt r (pyStrip (j.getD ""))) true =
        Except.ok none := by
    rcases hfail with hk | hr | ⟨t, hr, hp⟩
    · exact Or.inl hk
    · exact Or.inr (Or.inl (analyze_with_model_of_error env _ true hr))
    · exact Or.inr (Or.inr (analyze_with_model_of_unparseable env _ true t hr hp))
  rw [analyze_jd_path_fail env r j hne hd]
  obtain ⟨y, hy⟩ := analyze_resume_only_shape env r
  rw [hy]
  exact jdAbsentOk_merge y

theorem c9_jd_fallback_empties_witness :
    jdAbsentOk (analyze_resume_with_ai
      ⟨false, fun _ => Except.error ()⟩ "resume body" (some "Engineer")) = true :=
  c9_jd_fallback_empties ⟨false, fun _ => Except.error ()⟩ "resume body"
    (some "Engineer") (by decide) (Or.inl rfl)

/-- C10: a response text that parses as valid JSON which is not an object,
such as "[1, 2]", counts as a successful parse: analyze returns the
all-defaults Report of the generative path, with score 50 and no error
field, rather than the heuristic fallback (score 55, error
"fallback_used"), because the Normalizer replaces a non-dict parse result
with the defaults without signalling failure. -/
theorem c10_nonobject_parse (r : String) (j : Option String) :
    lookupKey (jsonFields (analyze_resume_with_ai
      ⟨true, fun _ => Except.ok "[1, 2]"⟩ r j)) "score" = some (Json.num 50) ∧
    lookupKey (jsonFields (analyze_resume_with_ai
      ⟨true, fun _ => Except.ok "[1, 2]"⟩ r j)) "error" = none := by
  have hm : ∀ p jdp,
      _analyze_with_model ⟨true, fun _ => Except.ok "[1, 2]"⟩ p jdp =
        Except.ok (some (_merge_defaults (Json.arr [Json.num 1, Json.num 2]) jdp)) :=
    fun p jdp => rfl
  by_cases hjd : pyStrip (j.getD "") = ""
  · rw [analyze_empty_jd _ _ _ hjd]
    have hro : _analyze_resume_only ⟨true, fun _ => Except.ok "[1, 2]"⟩ r =
        _merge_defaults (Json.arr [Json.num 1, Json.num 2]) false := rfl
    rw [hro, merge_defaults_def]
    exact ⟨rfl, rfl⟩
  · rw [analyze_jd_path_ok _ r j hjd _ (hm _ true) rfl, merge_defaults_def]
    exact ⟨rfl, rfl⟩
